import Mathlib

/-!
Shallow embedding of `src/main.py` (`generate_report`), the single pipeline of
this repository: parse a spreadsheet of failed query logs, aggregate it,
assemble a word-capped summary text, compose a PDF and publish it to a Drive
folder.  Text is modelled as `List Char`; a pandas row is a record of optional
fields (`none` models a null/NaN cell); the Drive store is a list of files.
-/

/-- A log row of the spreadsheet: columns `dataset`, `reason`, `date`
(`main.py` line 68).  `none` models a null/NaN cell; dates are modelled as
numeric timestamps, whose ordering is all the code uses. -/
structure Row where
  dataset : Option (List Char)
  reason : Option (List Char)
  date : Option Nat
deriving DecidableEq

/-- Python `str.split()` whitespace test (space, tab, newline, carriage
return, vertical tab, form feed). -/
def isSpace (c : Char) : Bool :=
  c = ' ' || c = '\t' || c = '\n' || c = '\r' || c = '\x0b' || c = '\x0c'

/-- Worker for `pySplit`: `acc` holds the current token reversed.  Runs of
whitespace are collapsed and leading/trailing whitespace produces no empty
token, exactly as Python `str.split()` with no argument. -/
def pySplitAux : List Char → List Char → List (List Char)
  | [], acc => if acc = [] then [] else [acc.reverse]
  | c :: cs, acc =>
    if isSpace c then
      if acc = [] then pySplitAux cs [] else acc.reverse :: pySplitAux cs []
    else
      pySplitAux cs (c :: acc)

/-- Python `summary_text.split()` (`main.py` line 111): whitespace
tokenization dropping empty tokens. -/
def pySplit (t : List Char) : List (List Char) := pySplitAux t []

/-- Python `sep.join(pieces)` for a one-character separator
(`" ".join` on line 113, `"\n".join` on line 110). -/
def joinWith (sep : Char) : List (List Char) → List Char
  | [] => []
  | [w] => w
  | w :: ws => w ++ sep :: joinWith sep ws

/-- The literal `"..."` appended by the code when truncating
(`main.py` lines 108 and 113). -/
def ellipsis : List Char := ['.', '.', '.']

/-- Number of whitespace-delimited tokens of a text (`len(summary_text.split())`). -/
def wordCount (t : List Char) : Nat := (pySplit t).length

/-- The 300-word cap of `main.py` lines 111-113: if the text has more than
300 whitespace tokens, keep the first 300 joined by single spaces and append
`"..."`; otherwise leave the text unchanged. -/
def capSummary (t : List Char) : List Char :=
  if 300 < (pySplit t).length then joinWith ' ' ((pySplit t).take 300) ++ ellipsis else t

/-- `total_failures = len(df)` (`main.py` line 76). -/
def totalFailures (rows : List Row) : Nat := rows.length

/-- The non-null values of the `dataset` column. -/
def datasetsOf (rows : List Row) : List (List Char) := rows.filterMap Row.dataset

/-- The non-null values of the `reason` column. -/
def reasonsOf (rows : List Row) : List (List Char) := rows.filterMap Row.reason

/-- Ordering used by pandas `value_counts()`: descending by count. -/
def countsDesc (a b : List Char × Nat) : Prop := b.2 ≤ a.2

instance : DecidableRel countsDesc := fun a b => inferInstanceAs (Decidable (b.2 ≤ a.2))

/-- Number of occurrences of the value `v` in `l`. -/
def countOcc (l : List (List Char)) (v : List Char) : Nat :=
  l.countP (fun w => decide (w = v))

/-- pandas `Series.value_counts()`: frequency of each distinct non-null value,
sorted descending by count.  Nulls were already dropped by
`datasetsOf`/`reasonsOf`, mirroring `dropna=True`.  pandas leaves the order of
tied counts unspecified (unstable sort); here ties keep first-occurrence
order, and no theorem below depends on tie order. -/
def valueCounts (l : List (List Char)) : List (List Char × Nat) :=
  List.insertionSort countsDesc (l.dedup.map fun v => (v, countOcc l v))

/-- `by_dataset = df['dataset'].value_counts()` (`main.py` line 77). -/
def byDataset (rows : List Row) : List (List Char × Nat) := valueCounts (datasetsOf rows)

/-- Total of the counts held by a `value_counts` result. -/
def sumCounts (l : List (List Char × Nat)) : Nat := (l.map Prod.snd).sum

/-- The sentinel `"N/A"` of `main.py` line 78. -/
def naChars : List Char := ['N', '/', 'A']

/-- Worker for `idxmax`: first pair attaining the maximal count wins
(strict `<` keeps the earlier pair on ties). -/
def idxmaxAux : List Char × Nat → List (List Char × Nat) → List Char
  | best, [] => best.1
  | best, p :: ps => if best.2 < p.2 then idxmaxAux p ps else idxmaxAux best ps

/-- pandas `Series.idxmax()`: index of the first occurrence of the maximal
value.  The `[]` case is unreachable in `mostCommonReason`. -/
def idxmax : List (List Char × Nat) → List Char
  | [] => naChars
  | p :: ps => idxmaxAux p ps

/-- `most_common_error = df['reason'].value_counts().idxmax() if not
df['reason'].isnull().all() else "N/A"` (`main.py` line 78):
`isnull().all()` holds exactly when no non-null reason exists. -/
def mostCommonReason (rows : List Row) : List Char :=
  if reasonsOf rows = [] then naChars else idxmax (valueCounts (reasonsOf rows))

/-- `most_recent = df['date'].max()` (`main.py` line 79): maximum of the
non-null dates, none (pandas NaT) when there is no such date. -/
def mostRecent (rows : List Row) : Option Nat := (rows.filterMap Row.date).max?

/-- Column projection of `df[['date', 'dataset', 'reason']]` applied to one row. -/
def projRow (r : Row) : Option Nat × Option (List Char) × Option (List Char) :=
  (r.date, r.dataset, r.reason)

/-- `recent_failures = df[['date', 'dataset', 'reason']].head(5)`
(`main.py` line 80): the first five rows of the projected table, in the
table's existing order. -/
def recentTop5 (rows : List Row) :
    List (Option Nat × Option (List Char) × Option (List Char)) :=
  (rows.map projRow).take 5

/-- Rendering of a possibly-null date in an f-string: pandas NaT prints `NaT`. -/
def fmtOptDate : Option Nat → List Char
  | none => "NaT".toList
  | some n => Nat.toDigits 10 n

/-- Rendering of a possibly-null string cell in an f-string / `str(...)`:
a NaN cell prints `nan`. -/
def fmtCell : Option (List Char) → List Char
  | none => "nan".toList
  | some s => s

/-- `str(row['reason'])[:60]` followed by the literal `"..."`
(`main.py` line 108), applied to the rendered cell. -/
def truncReason (s : List Char) : List Char := s.take 60 ++ ellipsis

/-- `summary_lines` of `main.py` lines 94-108: title, totals, the top five
dataset counts, the most common reason, and the recent failures with each
reason truncated to 60 characters plus the ellipsis marker. -/
def summaryLines (rows : List Row) : List (List Char) :=
  ["Failed Query Log Report".toList,
   "Total failed queries: ".toList ++ Nat.toDigits 10 (totalFailures rows),
   "Most recent failure: ".toList ++ fmtOptDate (mostRecent rows),
   [],
   "Failures by dataset (top 5):".toList]
  ++ ((byDataset rows).take 5).map
      (fun p => "  - ".toList ++ p.1 ++ ": ".toList ++ Nat.toDigits 10 p.2)
  ++ [[],
      "Most common error: ".toList ++ mostCommonReason rows,
      [],
      "Recent failures (top 5):".toList]
  ++ (recentTop5 rows).map
      (fun q => "  - Date: ".toList ++ fmtOptDate q.1
        ++ ", Dataset: ".toList ++ fmtCell q.2.1
        ++ ", Reason: ".toList ++ truncReason (fmtCell q.2.2))

/-- `summary_text = "\n".join(summary_lines)` (`main.py` line 110). -/
def buildSummary (rows : List Row) : List Char := joinWith '\n' (summaryLines rows)

/-- The summary text placed in the PDF after the 300-word cap
(`main.py` lines 111-113). -/
def finalSummary (rows : List Row) : List Char := capSummary (buildSummary rows)

/-- A parsed spreadsheet: its column names and its rows (`main.py` line 64). -/
structure Table where
  cols : List String
  rows : List Row

/-- `required_cols = ['dataset', 'reason', 'date']` (`main.py` line 68). -/
def requiredCols : List String := ["dataset", "reason", "date"]

/-- Outcome of the chart-render step (`main.py` lines 83-91), an external
matplotlib call: it either raises, or completes with the chart file present
or absent at `chart_path`. -/
inductive ChartOutcome
  | renderRaises
  | rendered (fileExists : Bool)

/-- Observable outcome of a run from the parsed table onward: the response
text and status, whether a PDF was uploaded, whether the aggregation step
(lines 76-80) ran, and whether the chart image was embedded (line 122). -/
structure RunResult where
  message : String
  status : Nat
  uploadedPdf : Bool
  reachedAggregation : Bool
  imageEmbedded : Bool
deriving DecidableEq

/-- `f"Error: Required column missing: {col}"` (`main.py` line 72). -/
def missingColMsg (c : String) : String := "Error: Required column missing: " ++ c

/-- The outer handler's response when the chart render raises
(`main.py` lines 160-162). -/
def renderFailMsg : String := "Error generating PDF report: chart render failed"

/-- The success response (`main.py` line 158). -/
def successMsg : String := "PDF report generated and uploaded to Drive."

/-- The pipeline from the parsed table to the response (`main.py` lines
68-158), with the chart-render outcome as an oracle: the column check of
lines 68-72 returns on the first missing required column before any
aggregation; a raising render propagates to the outer handler (lines
160-162), so nothing is uploaded; otherwise the report is composed (image
embedded only if the chart file exists, line 122) and uploaded. -/
def processTable (chart : ChartOutcome) (t : Table) : RunResult :=
  match requiredCols.find? (fun c => !(decide (c ∈ t.cols))) with
  | some c => ⟨missingColMsg c, 500, false, false, false⟩
  | none =>
    match chart with
    | .renderRaises => ⟨renderFailMsg, 500, false, true, false⟩
    | .rendered ex => ⟨successMsg, 200, true, true, ex⟩

/-- A file of the Drive folder as the code observes it: identifier, name,
trashed flag, and its content (abstracted to a version number). -/
structure DriveFile where
  id : Nat
  name : String
  trashed : Bool
  content : Nat
deriving DecidableEq

/-- The fixed report name (`main.py` line 131). -/
def reportName : String := "failed_logs_report.pdf"

/-- The query of `main.py` lines 136-139: live (non-trashed) files of the
folder named `failed_logs_report.pdf`, in the store's listing order. -/
def liveReports (fs : List DriveFile) : List DriveFile :=
  fs.filter (fun f => decide (f.name = reportName) && !f.trashed)

/-- The publish step (`main.py` lines 136-156): if a live report exists,
update the first one in place through `files().update` (same identifier, new
content); otherwise `files().create` a new file, here given the fresh
identifier `freshId`.  Returns the new store and the identifier written. -/
def publishReport (fs : List DriveFile) (newContent freshId : Nat) :
    List DriveFile × Nat :=
  match liveReports fs with
  | [] => (fs ++ [⟨freshId, reportName, false, newContent⟩], freshId)
  | f :: _ =>
    ((fs.map fun g => if g.id = f.id then { g with content := newContent } else g), f.id)

/-- Concrete row set with one null `dataset` cell. -/
def exRowsNullDataset : List Row := [⟨none, some ['r'], some 0⟩]

/-- Concrete row set whose only reason is the literal string `"N/A"`. -/
def exRowsLiteralNA : List Row := [⟨none, some naChars, none⟩]

/-- A table carrying all three required columns and one row. -/
def goodTable : Table := ⟨["dataset", "reason", "date"], [⟨some ['a'], some ['r'], some 1⟩]⟩

/-- Extra concrete row sets used as witnesses below. -/
def exRowsAllDataset : List Row :=
  [⟨some ['a'], none, none⟩, ⟨some ['a'], none, none⟩, ⟨some ['b'], none, none⟩]

/-- Row set whose reason `"b"` has strictly highest frequency. -/
def exRowsStrict : List Row :=
  [⟨none, some ['b'], none⟩, ⟨none, some ['b'], none⟩, ⟨none, some ['a'], none⟩]

/-- Row set with all reasons null. -/
def exRowsAllNull : List Row := [⟨none, none, some 3⟩]

/-- A row whose reason is 310 whitespace-separated words, driving the
assembled summary text past 300 words. -/
def exRowsLong : List Row :=
  [⟨some ['d'], some (joinWith ' ' (List.replicate 310 ['a'])), some 1⟩]

/-- A table whose `date` column is missing. -/
def missingDateTable : Table := ⟨["dataset", "reason"], []⟩

/-- A store already holding two live report files. -/
def storeWithReport : List DriveFile :=
  [⟨7, reportName, false, 0⟩, ⟨9, reportName, false, 1⟩]

/-- A store holding no live report file. -/
def storeWithoutReport : List DriveFile := [⟨3, "notes.txt", false, 0⟩]

theorem pySplitAux_word {w : List Char} (hw : ∀ c ∈ w, isSpace c = false) :
    ∀ (s acc : List Char), pySplitAux (w ++ s) acc = pySplitAux s (w.reverse ++ acc) := by
  induction w with
  | nil => intro s acc; simp
  | cons c w ih =>
    intro s acc
    have hc : isSpace c = false := hw c (List.mem_cons_self c w)
    have hw' : ∀ d ∈ w, isSpace d = false := fun d hd => hw d (List.mem_cons_of_mem c hd)
    have h1 : pySplitAux (c :: (w ++ s)) acc = pySplitAux (w ++ s) (c :: acc) := by
      simp [pySplitAux, hc]
    rw [List.cons_append, h1, ih hw' s (c :: acc)]
    simp [List.append_assoc]

theorem pySplitAux_space (s acc : List Char) (h : acc ≠ []) :
    pySplitAux (' ' :: s) acc = acc.reverse :: pySplitAux s [] := by
  have hsp : isSpace ' ' = true := by decide
  simp [pySplitAux, hsp, h]

theorem pySplitAux_flush (acc : List Char) (h : acc ≠ []) :
    pySplitAux [] acc = [acc.reverse] := by
  simp [pySplitAux, h]

theorem pySplit_tokens_good (s : List Char) :
    ∀ acc, (∀ c ∈ acc, isSpace c = false) →
      ∀ w ∈ pySplitAux s acc, w ≠ [] ∧ ∀ c ∈ w, isSpace c = false := by
  induction s with
  | nil =>
    intro acc hacc w hw
    by_cases h : acc = []
    · simp [pySplitAux, h] at hw
    · rw [pySplitAux_flush acc h] at hw
      simp at hw
      subst hw
      refine ⟨by simpa using h, ?_⟩
      intro c hc
      exact hacc c (List.mem_reverse.mp hc)
  | cons c cs ih =>
    intro acc hacc w hw
    by_cases hc : isSpace c = true
    · by_cases h : acc = []
      · rw [show pySplitAux (c :: cs) acc = pySplitAux cs [] by simp [pySplitAux, hc, h]] at hw
        exact ih [] (by simp) w hw
      · rw [show pySplitAux (c :: cs) acc = acc.reverse :: pySplitAux cs [] by
            simp [pySplitAux, hc, h]] at hw
        rcases List.mem_cons.mp hw with rfl | hw
        · exact ⟨by simpa using h, fun d hd => hacc d (List.mem_reverse.mp hd)⟩
        · exact ih [] (by simp) w hw
    · rw [show pySplitAux (c :: cs) acc = pySplitAux cs (c :: acc) by simp [pySplitAux, hc]] at hw
      refine ih (c :: acc) ?_ w hw
      intro d hd
      rcases List.mem_cons.mp hd with rfl | hd
      · simpa using hc
      · exact hacc d hd

theorem pySplit_join_length (t : List Char) (ht : ∀ c ∈ t, isSpace c = false) :
    ∀ ws : List (List Char), ws ≠ [] →
      (∀ w ∈ ws, w ≠ [] ∧ ∀ c ∈ w, isSpace c = false) →
      (pySplit (joinWith ' ' ws ++ t)).length = ws.length := by
  intro ws
  induction ws with
  | nil => intro h; exact absurd rfl h
  | cons w ws ih =>
    intro _ hgood
    obtain ⟨hw, hwc⟩ := hgood w (List.mem_cons_self w ws)
    rcases ws with _ | ⟨w2, ws'⟩
    · show (pySplitAux (w ++ t) []).length = 1
      rw [pySplitAux_word hwc t []]
      have h2 := pySplitAux_word ht [] (w.reverse ++ [])
      rw [List.append_nil] at h2
      rw [h2, List.append_nil]
      rw [pySplitAux_flush _ (by
        intro hcon
        have : w.reverse = [] := by
          cases hrev : w.reverse with
          | nil => rfl
          | cons x xs => rw [hrev] at hcon; simp at hcon
        exact hw (by simpa using this))]
      rfl
    · have hjoin : joinWith ' ' (w :: w2 :: ws') = w ++ ' ' :: joinWith ' ' (w2 :: ws') := by
        simp [joinWith]
      show (pySplitAux (joinWith ' ' (w :: w2 :: ws') ++ t) []).length = (w :: w2 :: ws').length
      rw [hjoin, List.append_assoc, List.cons_append]
      rw [pySplitAux_word hwc _ []]
      rw [List.append_nil]
      rw [pySplitAux_space _ _ (by simpa using hw)]
      have := ih (by simp) (fun x hx => hgood x (List.mem_cons_of_mem w hx))
      simp only [List.length_cons]
      rw [show pySplitAux (joinWith ' ' (w2 :: ws') ++ t) [] = pySplit (joinWith ' ' (w2 :: ws') ++ t) from rfl, this]
      simp

/-- Claim C2: for every row set whose assembled summary text exceeds 300
whitespace tokens, the final summary is exactly the first 300 tokens joined
by single spaces followed by the ellipsis marker, and its token count after
capping is 300 (the marker attaches to the final token); texts of at most
300 tokens are left unchanged. -/
theorem summary_cap_300 (rows : List Row) :
    (300 < wordCount (buildSummary rows) →
      finalSummary rows
        = joinWith ' ' ((pySplit (buildSummary rows)).take 300) ++ ellipsis ∧
      wordCount (finalSummary rows) = 300) ∧
    (wordCount (buildSummary rows) ≤ 300 → finalSummary rows = buildSummary rows) := by
  constructor
  · intro h
    have h' : 300 < (pySplit (buildSummary rows)).length := h
    have heq : finalSummary rows
        = joinWith ' ' ((pySplit (buildSummary rows)).take 300) ++ ellipsis := by
      unfold finalSummary capSummary
      rw [if_pos h']
    refine ⟨heq, ?_⟩
    have hgood : ∀ w ∈ (pySplit (buildSummary rows)).take 300,
        w ≠ [] ∧ ∀ c ∈ w, isSpace c = false :=
      fun w hw =>
        pySplit_tokens_good (buildSummary rows) [] (by simp) w (List.take_subset 300 _ hw)
    have hlen : ((pySplit (buildSummary rows)).take 300).length = 300 := by
      rw [List.length_take]
      omega
    have hne : (pySplit (buildSummary rows)).take 300 ≠ [] := by
      intro hcon
      rw [hcon] at hlen
      simp at hlen
    have hcap := pySplit_join_length ellipsis (by decide) _ hne hgood
    show (pySplit (finalSummary rows)).length = 300
    rw [heq, hcap, hlen]
  · intro h
    unfold finalSummary capSummary
    rw [if_neg (show ¬ 300 < (pySplit (buildSummary rows)).length from Nat.not_lt.mpr h)]

set_option maxRecDepth 100000 in
/-- Claim C2 witness: a single row whose reason holds 310 words pushes the
summary past 300 tokens, and the capped summary then has exactly 300 tokens. -/
theorem summary_cap_300_witness :
    300 < wordCount (buildSummary exRowsLong) ∧
    wordCount (finalSummary exRowsLong) = 300 :=
  ⟨by decide, ((summary_cap_300 exRowsLong).1 (by decide)).2⟩

/-- Claim C4: `recent_top5` equals the first five rows in the table's
existing ingestion order restricted to the columns date/dataset/reason; it is
a prefix of the projected table, hence not re-sorted by date. -/
theorem recentTop5_order (rows : List Row) :
    recentTop5 rows = (rows.take 5).map projRow ∧
    recentTop5 rows <+: rows.map projRow ∧
    (recentTop5 rows).length = min 5 rows.length := by
  refine ⟨(List.map_take projRow rows 5).symm, List.take_prefix 5 (rows.map projRow), ?_⟩
  unfold recentTop5
  rw [List.length_take, List.length_map]

/-- Claim C5: a rendered reason string of more than 60 characters becomes
exactly its first 60 characters (a prefix of the original) plus the ellipsis
marker, 63 characters in all; a string of at most 60 characters is rendered
intact plus the same marker. -/
theorem reason_truncation (s : List Char) :
    (60 < s.length →
      truncReason s = s.take 60 ++ ellipsis ∧ (s.take 60).length = 60 ∧
      (truncReason s).length = 63 ∧ s.take 60 <+: s) ∧
    (s.length ≤ 60 → truncReason s = s ++ ellipsis) := by
  constructor
  · intro h
    have h60 : (s.take 60).length = 60 := by
      rw [List.length_take]
      omega
    refine ⟨rfl, h60, ?_, List.take_prefix 60 s⟩
    unfold truncReason
    rw [List.length_append, h60]
    rfl
  · intro h
    unfold truncReason
    rw [List.take_of_length_le h]

/-- Claim C5 witness: a 61-character string is cut to its first 60 characters
plus the marker; a 2-character string passes through intact plus the marker. -/
theorem reason_truncation_witness :
    (60 < (List.replicate 61 'x').length ∧
      truncReason (List.replicate 61 'x') = (List.replicate 61 'x').take 60 ++ ellipsis) ∧
    (['a', 'b'].length ≤ 60 ∧ truncReason ['a', 'b'] = ['a', 'b'] ++ ellipsis) :=
  ⟨⟨by decide, ((reason_truncation (List.replicate 61 'x')).1 (by decide)).1⟩,
   ⟨by decide, (reason_truncation ['a', 'b']).2 (by decide)⟩⟩

theorem map_fst_pairs (l : List (List Char)) :
    ∀ xs : List (List Char), (xs.map fun v => (v, countOcc l v)).map Prod.fst = xs := by
  intro xs
  induction xs with
  | nil => rfl
  | cons x xs ih => simp [ih]

theorem sumCounts_valueCounts (l : List (List Char)) :
    sumCounts (valueCounts l) = l.length := by
  unfold sumCounts valueCounts
  calc ((List.insertionSort countsDesc (l.dedup.map fun v => (v, countOcc l v))).map Prod.snd).sum
      = ((l.dedup.map fun v => (v, countOcc l v)).map Prod.snd).sum :=
        List.Perm.sum_eq (List.Perm.map _ (List.perm_insertionSort countsDesc _))
    _ = (l.dedup.map fun v => countOcc l v).sum := by
        rw [List.map_map]
        rfl
    _ = l.length := List.sum_map_count_dedup_eq_length l

/-- Claim C10: rows whose dataset is null are excluded from `by_dataset`
entirely: its counts sum to the number of rows carrying a non-null dataset
value, and its keys are exactly the distinct non-null dataset values. -/
theorem null_datasets_excluded (rows : List Row) :
    sumCounts (byDataset rows) = (rows.filterMap Row.dataset).length ∧
    ((byDataset rows).map Prod.fst).Perm (rows.filterMap Row.dataset).dedup := by
  constructor
  · exact sumCounts_valueCounts _
  · unfold byDataset valueCounts datasetsOf
    refine (List.Perm.map Prod.fst (List.perm_insertionSort countsDesc _)).trans ?_
    rw [map_fst_pairs _ _]

theorem filterMap_dataset_length (rows : List Row)
    (h : ∀ r ∈ rows, r.dataset ≠ none) :
    (rows.filterMap Row.dataset).length = rows.length := by
  induction rows with
  | nil => rfl
  | cons r rows ih =>
    rcases hr : r.dataset with _ | v
    · exact absurd hr (h r (List.mem_cons_self r rows))
    · rw [List.filterMap_cons_some hr]
      simp only [List.length_cons]
      rw [ih (fun x hx => h x (List.mem_cons_of_mem r hx))]

/-- Claim C1 (amended): the `by_dataset` counts sum to `total` on every row
set whose dataset values are all non-null; with null dataset values the sum
falls short of the total (see the counterexample). -/
theorem byDataset_sum_total (rows : List Row) (h : ∀ r ∈ rows, r.dataset ≠ none) :
    sumCounts (byDataset rows) = totalFailures rows := by
  unfold byDataset datasetsOf totalFailures
  rw [sumCounts_valueCounts]
  exact filterMap_dataset_length rows h

/-- Claim C1 counterexample: on a single row whose dataset is null, the
`by_dataset` counts sum to 0 while the total row count is 1. -/
theorem byDataset_sum_total_counterexample :
    ¬ sumCounts (byDataset exRowsNullDataset) = totalFailures exRowsNullDataset := by
  decide

/-- Claim C1 witness: on three rows with non-null datasets the counts sum to
the total. -/
theorem byDataset_sum_total_witness :
    (∀ r ∈ exRowsAllDataset, r.dataset ≠ none) ∧
    sumCounts (byDataset exRowsAllDataset) = totalFailures exRowsAllDataset :=
  ⟨by decide, byDataset_sum_total exRowsAllDataset (by decide)⟩

theorem idxmaxAux_spec (ps : List (List Char × Nat)) :
    ∀ best : List Char × Nat, ∃ q, q ∈ best :: ps ∧ idxmaxAux best ps = q.1 ∧
      ∀ p ∈ best :: ps, p.2 ≤ q.2 := by
  induction ps with
  | nil =>
    intro best
    refine ⟨best, List.mem_cons_self best [], rfl, ?_⟩
    intro p hp
    rcases List.mem_cons.mp hp with rfl | hp
    · exact Nat.le_refl _
    · simp at hp
  | cons p ps ih =>
    intro best
    by_cases h : best.2 < p.2
    · obtain ⟨q, hmem, he, hall⟩ := ih p
      refine ⟨q, ?_, ?_, ?_⟩
      · rcases List.mem_cons.mp hmem with rfl | hq
        · exact List.mem_cons_of_mem _ (List.mem_cons_self _ _)
        · exact List.mem_cons_of_mem _ (List.mem_cons_of_mem _ hq)
      · simpa [idxmaxAux, h] using he
      · intro x hx
        rcases List.mem_cons.mp hx with rfl | hx
        · exact Nat.le_trans (Nat.le_of_lt h) (hall p (List.mem_cons_self _ _))
        · exact hall x hx
    · obtain ⟨q, hmem, he, hall⟩ := ih best
      refine ⟨q, ?_, ?_, ?_⟩
      · rcases List.mem_cons.mp hmem with rfl | hq
        · exact List.mem_cons_self _ _
        · exact List.mem_cons_of_mem _ (List.mem_cons_of_mem _ hq)
      · simpa [idxmaxAux, h] using he
      · intro x hx
        rcases List.mem_cons.mp hx with rfl | hx
        · exact hall x (List.mem_cons_self _ _)
        · rcases List.mem_cons.mp hx with rfl | hx
          · exact Nat.le_trans (Nat.le_of_not_lt h) (hall best (List.mem_cons_self _ _))
          · exact hall x (List.mem_cons_of_mem _ hx)

/-- Claim C3 (amended): `most_common_reason` is the sentinel whenever every
reason is null, and whenever some non-null reason has strictly highest
frequency it is that reason; but the sentinel is not exclusive to the
all-null case, since a most common literal reason string equal to it
produces the same output (see the counterexample). -/
theorem mostCommonReason_spec (rows : List Row) :
    ((∀ r ∈ rows, r.reason = none) → mostCommonReason rows = naChars) ∧
    (∀ v ∈ reasonsOf rows,
      (∀ w ∈ reasonsOf rows, w ≠ v →
        countOcc (reasonsOf rows) w < countOcc (reasonsOf rows) v) →
      mostCommonReason rows = v) := by
  constructor
  · intro h
    have hnil : reasonsOf rows = [] := by
      unfold reasonsOf
      rw [List.filterMap_eq_nil_iff]
      intro r hr
      exact h r hr
    unfold mostCommonReason
    rw [if_pos hnil]
  · intro v hv hstrict
    have hne : reasonsOf rows ≠ [] := by
      intro hc
      rw [hc] at hv
      simp at hv
    unfold mostCommonReason
    rw [if_neg hne]
    have hvd : v ∈ (reasonsOf rows).dedup := List.mem_dedup.mpr hv
    have hvsorted : (v, countOcc (reasonsOf rows) v) ∈ valueCounts (reasonsOf rows) := by
      unfold valueCounts
      exact (List.perm_insertionSort countsDesc _).mem_iff.mpr
        (List.mem_map.mpr ⟨v, hvd, rfl⟩)
    rcases hsort : valueCounts (reasonsOf rows) with _ | ⟨p, ps⟩
    · rw [hsort] at hvsorted
      simp at hvsorted
    · obtain ⟨q, hqmem, hqe, hqmax⟩ := idxmaxAux_spec ps p
      have hq_in_pairs : q ∈ (reasonsOf rows).dedup.map
          fun w => (w, countOcc (reasonsOf rows) w) := by
        have hq2 : q ∈ valueCounts (reasonsOf rows) := by
          rw [hsort]
          exact hqmem
        unfold valueCounts at hq2
        exact (List.perm_insertionSort countsDesc _).mem_iff.mp hq2
      obtain ⟨w, hwd, hwq⟩ := List.mem_map.mp hq_in_pairs
      have hvmem : (v, countOcc (reasonsOf rows) v) ∈ p :: ps := by
        rw [← hsort]
        exact hvsorted
      have hcount : countOcc (reasonsOf rows) v ≤ q.2 := hqmax _ hvmem
      have hwv : w = v := by
        by_contra hne2
        have hlt := hstrict w (List.mem_dedup.mp hwd) hne2
        rw [← hwq] at hcount
        exact absurd hcount (Nat.not_le.mpr hlt)
      show idxmaxAux p ps = v
      rw [hqe, ← hwq, hwv]

/-- Claim C3 counterexample: on a single row whose reason is the literal
string `"N/A"`, `most_common_reason` is `"N/A"` although not every reason is
null, so the stated if-and-only-if fails in the right-to-left direction. -/
theorem mostCommonReason_iff_counterexample :
    ¬ (mostCommonReason exRowsLiteralNA = naChars ↔
        ∀ r ∈ exRowsLiteralNA, r.reason = none) := by
  decide

/-- Claim C3 witness: all-null reasons give the sentinel, and the strictly
most frequent reason `"b"` is returned on a concrete row set. -/
theorem mostCommonReason_spec_witness :
    ((∀ r ∈ exRowsAllNull, r.reason = none) ∧ mostCommonReason exRowsAllNull = naChars) ∧
    (['b'] ∈ reasonsOf exRowsStrict ∧ mostCommonReason exRowsStrict = ['b']) :=
  ⟨⟨by decide, (mostCommonReason_spec exRowsAllNull).1 (by decide)⟩,
   ⟨by decide, (mostCommonReason_spec exRowsStrict).2 ['b'] (by decide) (by decide)⟩⟩

/-- Claim C6: on the empty row set the aggregation and summary assembly are
total: the total is 0, the most common reason is the sentinel `"N/A"`, the
most recent date is the undefined NaT-like value (`none`, rendered `NaT` in
the summary line), and the summary text is still assembled and capped. -/
theorem empty_rows_total :
    totalFailures [] = 0 ∧ mostCommonReason [] = naChars ∧ mostRecent [] = none ∧
    "Most recent failure: NaT".toList ∈ summaryLines [] ∧
    wordCount (finalSummary []) ≤ 300 := by
  decide

/-- Claim C7: whenever a required column (dataset, reason or date) is
missing from the parsed table, the run returns the validation error naming
that column with status 500, never reaches the aggregation step, and uploads
no PDF, whatever the chart step would have done. -/
theorem missing_column_fails (chart : ChartOutcome) (t : Table)
    (h : ¬ ∀ c ∈ requiredCols, c ∈ t.cols) :
    ∃ c ∈ requiredCols, c ∉ t.cols ∧
      processTable chart t = ⟨missingColMsg c, 500, false, false, false⟩ := by
  push_neg at h
  obtain ⟨c0, hc0, hnot⟩ := h
  have hsome : (requiredCols.find? (fun c => !(decide (c ∈ t.cols)))).isSome := by
    rw [List.find?_isSome]
    exact ⟨c0, hc0, by simpa using hnot⟩
  obtain ⟨c, hc⟩ := Option.isSome_iff_exists.mp hsome
  refine ⟨c, List.mem_of_find?_eq_some hc, ?_, ?_⟩
  · have hpc := List.find?_some hc
    simpa using hpc
  · unfold processTable
    rw [hc]

/-- Claim C7 witness: a table missing the `date` column yields the
validation failure for `date`, status 500, no aggregation, no upload. -/
theorem missing_column_fails_witness :
    (¬ ∀ c ∈ requiredCols, c ∈ missingDateTable.cols) ∧
    ∃ c ∈ requiredCols, c ∉ missingDateTable.cols ∧
      processTable (ChartOutcome.rendered true) missingDateTable
        = ⟨missingColMsg c, 500, false, false, false⟩ :=
  ⟨by decide, missing_column_fails (ChartOutcome.rendered true) missingDateTable (by decide)⟩

/-- Claim C8 counterexample: on a fully valid table, a raising chart render
leaves the run with no uploaded report and status 500 — the summary-only
report is not produced, contradicting the claim that render failure cannot
crash report generation. -/
theorem render_failure_crashes :
    (processTable ChartOutcome.renderRaises goodTable).uploadedPdf = false ∧
    (processTable ChartOutcome.renderRaises goodTable).status = 500 := by
  decide

/-- Claim C8 (amended): on a validated table, a raising chart render aborts
the run through the outer handler (status 500, aggregation reached, nothing
uploaded, no image); only when rendering completes without raising is the
report produced and uploaded, with the image embedded exactly when the chart
file exists. -/
theorem render_outcome_behavior (t : Table) (h : ∀ c ∈ requiredCols, c ∈ t.cols) :
    processTable ChartOutcome.renderRaises t = ⟨renderFailMsg, 500, false, true, false⟩ ∧
    ∀ ex, processTable (ChartOutcome.rendered ex) t = ⟨successMsg, 200, true, true, ex⟩ := by
  have hnone : requiredCols.find? (fun c => !(decide (c ∈ t.cols))) = none := by
    rw [List.find?_eq_none]
    intro c hc
    simpa using h c hc
  constructor
  · unfold processTable
    rw [hnone]
  · intro ex
    unfold processTable
    rw [hnone]

/-- Claim C8 witness: on the valid table, the raising render gives the
failure outcome and a successful render with an existing chart file gives an
uploaded report with the image embedded. -/
theorem render_outcome_behavior_witness :
    (∀ c ∈ requiredCols, c ∈ goodTable.cols) ∧
    processTable ChartOutcome.renderRaises goodTable
      = ⟨renderFailMsg, 500, false, true, false⟩ ∧
    (processTable (ChartOutcome.rendered true) goodTable).imageEmbedded = true :=
  ⟨by decide, (render_outcome_behavior goodTable (by decide)).1, by
    rw [(render_outcome_behavior goodTable (by decide)).2 true]⟩

theorem publish_map_id (fs : List DriveFile) (fid c : Nat) :
    ((fs.map fun g => if g.id = fid then { g with content := c } else g).map DriveFile.id)
      = fs.map DriveFile.id := by
  induction fs with
  | nil => rfl
  | cons f fs ih =>
    simp only [List.map_cons, ih]
    congr 1
    by_cases h : f.id = fid
    · simp [h]
    · simp [h]

/-- Claim C9: when a live file named `failed_logs_report.pdf` exists in the
folder, publishing updates the first such file in place — the identifier
written is that file's, the store keeps exactly the same identifiers and
length, and the file now carries the new content; when none exists, a single
new file with a fresh identifier is created. -/
theorem publish_report_spec (fs : List DriveFile) (c i : Nat) :
    (∀ f rest, liveReports fs = f :: rest →
      (publishReport fs c i).2 = f.id ∧
      (publishReport fs c i).1.map DriveFile.id = fs.map DriveFile.id ∧
      (publishReport fs c i).1.length = fs.length ∧
      ({ f with content := c } : DriveFile) ∈ (publishReport fs c i).1) ∧
    (liveReports fs = [] →
      (publishReport fs c i).1 = fs ++ [⟨i, reportName, false, c⟩] ∧
      (publishReport fs c i).2 = i) := by
  constructor
  · intro f rest h
    have hpub : publishReport fs c i
        = ((fs.map fun g => if g.id = f.id then { g with content := c } else g), f.id) := by
      unfold publishReport
      rw [h]
    have hf : f ∈ fs := by
      have hl : f ∈ liveReports fs := by
        rw [h]
        exact List.mem_cons_self f rest
      exact List.mem_of_mem_filter hl
    refine ⟨by rw [hpub], ?_, ?_, ?_⟩
    · rw [hpub]
      exact publish_map_id fs f.id c
    · rw [hpub]
      simp
    · rw [hpub]
      exact List.mem_map.mpr ⟨f, hf, by simp⟩
  · intro h
    unfold publishReport
    rw [h]
    exact ⟨rfl, rfl⟩

/-- Claim C9 witness: with two live reports present the first one's
identifier (7) is reused and the identifiers are unchanged; with none
present the store gains exactly the one fresh file. -/
theorem publish_report_spec_witness :
    (liveReports storeWithReport
        = (⟨7, reportName, false, 0⟩ : DriveFile) :: [⟨9, reportName, false, 1⟩] ∧
      (publishReport storeWithReport 5 100).2 = 7 ∧
      (publishReport storeWithReport 5 100).1.map DriveFile.id
        = storeWithReport.map DriveFile.id) ∧
    (liveReports storeWithoutReport = [] ∧
      (publishReport storeWithoutReport 5 100).1
        = storeWithoutReport ++ [⟨100, reportName, false, 5⟩]) :=
  ⟨⟨by decide,
    ((publish_report_spec storeWithReport 5 100).1 ⟨7, reportName, false, 0⟩
      [⟨9, reportName, false, 1⟩] (by decide)).1,
    ((publish_report_spec storeWithReport 5 100).1 ⟨7, reportName, false, 0⟩
      [⟨9, reportName, false, 1⟩] (by decide)).2.1⟩,
   ⟨by decide,
    ((publish_report_spec storeWithoutReport 5 100).2 (by decide)).1⟩⟩
